import Mathlib

/-!
Verification of the redirect resolution engine of the `redirector` repository
(`src/main.ts` and the library file exporting `loadConfig`, `getRedirectInfo`,
`createHandler`).  The TypeScript source is shallowly embedded: interfaces
become structures, optional fields (`status?: 301 | 307`) become `Option Nat`
(the runtime value is a plain number), and the `for (const rule of
config.redirects)` loop becomes structural recursion over a list.
-/

namespace Redirector

/-- Embeds the TS interface `RedirectRule`: `from: string; to: string;
status?: 301 | 307`.  The optional status field is an `Option Nat` because at
runtime it is a plain number (or absent). -/
structure RedirectRule where
  «from» : String
  «to» : String
  status : Option Nat
deriving DecidableEq, Repr

/-- Embeds the TS interface `Config`: `destination: string;
redirectStatus?: 301 | 307; redirects?: RedirectRule[]`. -/
structure Config where
  destination : String
  redirectStatus : Option Nat
  redirects : Option (List RedirectRule)
deriving DecidableEq, Repr

/-- The two components of the incoming request URL that `getRedirectInfo`
reads: `url.pathname` and `url.search` (the raw query string, empty or
starting with a question mark). -/
structure URL where
  pathname : String
  search : String
deriving DecidableEq, Repr

/-- The return shape of `getRedirectInfo`: `{ url: string; status: number }`. -/
structure RedirectInfo where
  url : String
  status : Nat
deriving DecidableEq, Repr

/-- Embeds the JS method call `s.startsWith(p)` (true exactly when `p` is a
prefix of `s`), written over the character list so that concrete instances
reduce in the kernel. -/
def jsStartsWith (s p : String) : Bool :=
  p.data.isPrefixOf s.data

/-- The body of the `for (const rule of config.redirects)` loop inside
`getRedirectInfo`: scans the rules in order, and for the first rule whose
`from` equals the pathname returns the computed redirect (`some`), otherwise
falls through (`none`).  The two branches mirror the source: a `to` that
starts with a scheme is returned verbatim, otherwise the destination host,
the rule path and the original query string are concatenated. -/
def redirectLoop (pathname search : String) (defaultStatus : Nat)
    (destination : String) : List RedirectRule → Option RedirectInfo
  | [] => none
  | rule :: rest =>
    if pathname = rule.«from» then
      let status := rule.status.getD defaultStatus
      if jsStartsWith rule.«to» "http://" || jsStartsWith rule.«to» "https://" then
        some { url := rule.«to», status := status }
      else
        some { url := "https://" ++ destination ++ rule.«to» ++ search,
               status := status }
    else
      redirectLoop pathname search defaultStatus destination rest

/-- Embeds `getRedirectInfo(url, config)`.  `config.redirectStatus ?? 307`
becomes `Option.getD`, and the `if (config.redirects)` guard becomes
`Option.getD []` (a present-but-empty array is truthy in JS and the loop then
runs zero iterations, which is the same as scanning `[]`).  When the loop
falls through, the default substitution keeps path and query and forces the
`https` scheme. -/
def getRedirectInfo (url : URL) (config : Config) : RedirectInfo :=
  let pathname := url.pathname
  let search := url.search
  let defaultStatus := config.redirectStatus.getD 307
  match redirectLoop pathname search defaultStatus config.destination
      (config.redirects.getD []) with
  | some info => info
  | none =>
      { url := "https://" ++ config.destination ++ pathname ++ search,
        status := defaultStatus }

/-! Helper lemmas about the scanning loop, shared by several theorems. -/

/-- If no rule in the list matches the pathname, the loop falls through. -/
theorem redirectLoop_eq_none_of_no_match (pathname search : String)
    (defaultStatus : Nat) (destination : String) (rules : List RedirectRule)
    (h : ∀ r ∈ rules, r.«from» ≠ pathname) :
    redirectLoop pathname search defaultStatus destination rules = none := by
  induction rules with
  | nil => rfl
  | cons rule rest ih =>
      have hr : rule.«from» ≠ pathname := h rule (List.mem_cons_self _ _)
      have hrest : ∀ r ∈ rest, r.«from» ≠ pathname := fun r hmem =>
        h r (List.mem_cons_of_mem _ hmem)
      simp only [redirectLoop]
      rw [if_neg (fun hp => hr hp.symm)]
      exact ih hrest

/-- A prefix of non-matching rules does not affect the loop's result. -/
theorem redirectLoop_append_of_no_match (pathname search : String)
    (defaultStatus : Nat) (destination : String)
    (pre rules : List RedirectRule)
    (h : ∀ r ∈ pre, r.«from» ≠ pathname) :
    redirectLoop pathname search defaultStatus destination (pre ++ rules)
      = redirectLoop pathname search defaultStatus destination rules := by
  induction pre with
  | nil => rfl
  | cons rule rest ih =>
      have hr : rule.«from» ≠ pathname := h rule (List.mem_cons_self _ _)
      have hrest : ∀ r ∈ rest, r.«from» ≠ pathname := fun r hmem =>
        h r (List.mem_cons_of_mem _ hmem)
      simp only [List.cons_append, redirectLoop]
      rw [if_neg (fun hp => hr hp.symm)]
      exact ih hrest

/-- When the head rule matches, the loop stops at it. -/
theorem redirectLoop_cons_of_match (pathname search : String)
    (defaultStatus : Nat) (destination : String) (rule : RedirectRule)
    (rest : List RedirectRule) (h : rule.«from» = pathname) :
    redirectLoop pathname search defaultStatus destination (rule :: rest)
      = some (if jsStartsWith rule.«to» "http://" || jsStartsWith rule.«to» "https://"
          then { url := rule.«to», status := rule.status.getD defaultStatus }
          else { url := "https://" ++ destination ++ rule.«to» ++ search,
                 status := rule.status.getD defaultStatus }) := by
  simp only [redirectLoop]
  rw [if_pos h.symm]
  split <;> rfl

/-- Shared helper: when no configured rule matches the path, the resolver
returns the default substitution. -/
theorem getRedirectInfo_no_match (config : Config) (url : URL)
    (h : ∀ rs ∈ config.redirects, ∀ r ∈ rs, r.«from» ≠ url.pathname) :
    getRedirectInfo url config
      = { url := "https://" ++ config.destination ++ url.pathname ++ url.search,
          status := config.redirectStatus.getD 307 } := by
  have hno : ∀ r ∈ config.redirects.getD [], r.«from» ≠ url.pathname := by
    cases hrs : config.redirects with
    | none => intro r hmem; simp at hmem
    | some rs =>
        intro r hmem
        exact h rs (by simp [hrs]) r (by simpa using hmem)
  have hl := redirectLoop_eq_none_of_no_match url.pathname url.search
    (config.redirectStatus.getD 307) config.destination _ hno
  simp only [getRedirectInfo, hl]

/-- Claim C1: for every configuration and request URL whose path matches no
rule's `from` (including when `redirects` is empty or absent), the resolver
returns the default substitution `https://` + destination + path + query with
status `redirectStatus` if present, else 307; the scheme is always `https`. -/
theorem default_substitution (config : Config) (url : URL)
    (h : ∀ rs ∈ config.redirects, ∀ r ∈ rs, r.«from» ≠ url.pathname) :
    getRedirectInfo url config
      = { url := "https://" ++ config.destination ++ url.pathname ++ url.search,
          status := config.redirectStatus.getD 307 } :=
  getRedirectInfo_no_match config url h

/-- Witness for C1: the spec's own example, destination `bar.com`, no rules,
request path `/example` with empty query resolves to
`https://bar.com/example` with status 307. -/
theorem default_substitution_witness :
    (∀ rs ∈ (Config.mk "bar.com" none none).redirects, ∀ r ∈ rs,
        r.«from» ≠ (URL.mk "/example" "").pathname)
    ∧ getRedirectInfo (URL.mk "/example" "") (Config.mk "bar.com" none none)
      = { url := "https://bar.com/example", status := 307 } :=
  ⟨by simp, default_substitution (Config.mk "bar.com" none none)
      (URL.mk "/example" "") (by simp)⟩

/-- The result the loop produces for a matching rule, abbreviating the two
branches of the loop body. -/
theorem getRedirectInfo_first_match (config : Config) (url : URL)
    (pre rest : List RedirectRule) (rule : RedirectRule)
    (hred : config.redirects = some (pre ++ rule :: rest))
    (hpre : ∀ r ∈ pre, r.«from» ≠ url.pathname)
    (hrule : rule.«from» = url.pathname) :
    getRedirectInfo url config
      = if jsStartsWith rule.«to» "http://" || jsStartsWith rule.«to» "https://"
          then { url := rule.«to»,
                 status := rule.status.getD (config.redirectStatus.getD 307) }
          else { url := "https://" ++ config.destination ++ rule.«to»
                   ++ url.search,
                 status := rule.status.getD (config.redirectStatus.getD 307) } := by
  have hl : redirectLoop url.pathname url.search
      (config.redirectStatus.getD 307) config.destination
      (config.redirects.getD [])
      = some (if jsStartsWith rule.«to» "http://"
            || jsStartsWith rule.«to» "https://"
          then { url := rule.«to»,
                 status := rule.status.getD (config.redirectStatus.getD 307) }
          else { url := "https://" ++ config.destination ++ rule.«to»
                   ++ url.search,
                 status := rule.status.getD (config.redirectStatus.getD 307) }) := by
    rw [hred]
    simp only [Option.getD_some]
    rw [redirectLoop_append_of_no_match _ _ _ _ _ _ hpre,
      redirectLoop_cons_of_match _ _ _ _ _ _ hrule]
  simp only [getRedirectInfo, hl]

/-- Claim C2: the resolver uses only the first rule whose `from` equals the
request path; the result is the same as if that rule were the only one
configured, so later rules (including duplicates of the same `from`) never
affect the result. -/
theorem first_match_wins (config : Config) (url : URL)
    (pre rest : List RedirectRule) (rule : RedirectRule)
    (hpre : ∀ r ∈ pre, r.«from» ≠ url.pathname)
    (hrule : rule.«from» = url.pathname) :
    getRedirectInfo url { config with redirects := some (pre ++ rule :: rest) }
      = getRedirectInfo url { config with redirects := some [rule] } := by
  rw [getRedirectInfo_first_match
      { config with redirects := some (pre ++ rule :: rest) } url pre rest rule
      rfl hpre hrule,
    getRedirectInfo_first_match
      { config with redirects := some [rule] } url [] [] rule rfl
      (by simp) hrule]

/-- Witness for C2: two rules share `from = "/dup"`; with a non-matching rule
before them and a conflicting duplicate after, the result equals that of the
first duplicate alone. -/
theorem first_match_wins_witness :
    (∀ r ∈ [RedirectRule.mk "/other" "/o" none],
        r.«from» ≠ (URL.mk "/dup" "").pathname)
    ∧ (RedirectRule.mk "/dup" "/first" none).«from»
        = (URL.mk "/dup" "").pathname
    ∧ getRedirectInfo (URL.mk "/dup" "")
        { destination := "bar.com", redirectStatus := none,
          redirects := some [RedirectRule.mk "/other" "/o" none,
            RedirectRule.mk "/dup" "/first" none,
            RedirectRule.mk "/dup" "/second" (some 301)] }
      = getRedirectInfo (URL.mk "/dup" "")
        { destination := "bar.com", redirectStatus := none,
          redirects := some [RedirectRule.mk "/dup" "/first" none] } :=
  ⟨by simp, rfl,
    first_match_wins
      (Config.mk "bar.com" none
        (some [RedirectRule.mk "/other" "/o" none,
          RedirectRule.mk "/dup" "/first" none,
          RedirectRule.mk "/dup" "/second" (some 301)]))
      (URL.mk "/dup" "") [RedirectRule.mk "/other" "/o" none]
      [RedirectRule.mk "/dup" "/second" (some 301)]
      (RedirectRule.mk "/dup" "/first" none) (by simp) rfl⟩

/-- Claim C3: when the first matching rule's `to` starts with `http://` or
`https://`, the returned url is that `to` verbatim, and the incoming query
string is discarded: the returned url is the same whatever the query was. -/
theorem absolute_rule_query_dropped (config : Config) (url : URL)
    (pre rest : List RedirectRule) (rule : RedirectRule)
    (hred : config.redirects = some (pre ++ rule :: rest))
    (hpre : ∀ r ∈ pre, r.«from» ≠ url.pathname)
    (hrule : rule.«from» = url.pathname)
    (habs : jsStartsWith rule.«to» "http://" = true
        ∨ jsStartsWith rule.«to» "https://" = true) :
    (getRedirectInfo url config).url = rule.«to»
    ∧ ∀ q : String,
        (getRedirectInfo (URL.mk url.pathname q) config).url = rule.«to» := by
  have hcond : (jsStartsWith rule.«to» "http://"
      || jsStartsWith rule.«to» "https://") = true := by
    rcases habs with h | h <;> simp [h]
  constructor
  · rw [getRedirectInfo_first_match config url pre rest rule hred hpre hrule]
    rw [if_pos hcond]
  · intro q
    rw [getRedirectInfo_first_match config (URL.mk url.pathname q) pre rest
        rule hred hpre hrule]
    rw [if_pos hcond]

/-- Witness for C3: the spec's example — rule `/blog → https://blog.example.com`
with incoming query `?x=1` yields exactly `https://blog.example.com`. -/
theorem absolute_rule_query_dropped_witness :
    ((Config.mk "bar.com" none
        (some [RedirectRule.mk "/blog" "https://blog.example.com" none])).redirects
      = some ([] ++ RedirectRule.mk "/blog" "https://blog.example.com" none :: []))
    ∧ (getRedirectInfo (URL.mk "/blog" "?x=1")
        (Config.mk "bar.com" none
          (some [RedirectRule.mk "/blog" "https://blog.example.com" none]))).url
      = "https://blog.example.com" :=
  ⟨rfl,
    (absolute_rule_query_dropped
      (Config.mk "bar.com" none
        (some [RedirectRule.mk "/blog" "https://blog.example.com" none]))
      (URL.mk "/blog" "?x=1") [] []
      (RedirectRule.mk "/blog" "https://blog.example.com" none)
      rfl (by simp) rfl (Or.inr (by decide))).1⟩

/-- Claim C4: when the first matching rule's `to` does not start with a
scheme, the returned url is `https://` + destination + the rule's `to` + the
incoming query string. -/
theorem relative_rule_appends_query (config : Config) (url : URL)
    (pre rest : List RedirectRule) (rule : RedirectRule)
    (hred : config.redirects = some (pre ++ rule :: rest))
    (hpre : ∀ r ∈ pre, r.«from» ≠ url.pathname)
    (hrule : rule.«from» = url.pathname)
    (hrel : jsStartsWith rule.«to» "http://" = false
        ∧ jsStartsWith rule.«to» "https://" = false) :
    (getRedirectInfo url config).url
      = "https://" ++ config.destination ++ rule.«to» ++ url.search := by
  rw [getRedirectInfo_first_match config url pre rest rule hred hpre hrule]
  rw [if_neg (by simp [hrel.1, hrel.2])]

/-- Witness for C4: the spec's example — rule `/biz → /baz`, destination
`bar.com`, query `?test=1` yields `https://bar.com/baz?test=1`. -/
theorem relative_rule_appends_query_witness :
    ((Config.mk "bar.com" none
        (some [RedirectRule.mk "/biz" "/baz" none])).redirects
      = some ([] ++ RedirectRule.mk "/biz" "/baz" none :: []))
    ∧ (getRedirectInfo (URL.mk "/biz" "?test=1")
        (Config.mk "bar.com" none
          (some [RedirectRule.mk "/biz" "/baz" none]))).url
      = "https://bar.com/baz?test=1" :=
  ⟨rfl,
    relative_rule_appends_query
      (Config.mk "bar.com" none (some [RedirectRule.mk "/biz" "/baz" none]))
      (URL.mk "/biz" "?test=1") [] [] (RedirectRule.mk "/biz" "/baz" none)
      rfl (by simp) rfl (by decide)⟩

/-- Claim C5: status precedence.  When a rule matches, the returned status is
the rule's `status` if present, else `config.redirectStatus` if present, else
307 (exactly `rule.status.getD (config.redirectStatus.getD 307)`); when no
rule matches, it is `config.redirectStatus` if present, else 307. -/
theorem status_precedence (config : Config) (url : URL)
    (pre rest : List RedirectRule) (rule : RedirectRule)
    (hpre : ∀ r ∈ pre, r.«from» ≠ url.pathname)
    (hrule : rule.«from» = url.pathname) :
    (getRedirectInfo url
        { config with redirects := some (pre ++ rule :: rest) }).status
      = rule.status.getD (config.redirectStatus.getD 307)
    ∧ ∀ c : Config, ∀ u : URL,
        (∀ rs ∈ c.redirects, ∀ r ∈ rs, r.«from» ≠ u.pathname) →
        (getRedirectInfo u c).status = c.redirectStatus.getD 307 := by
  constructor
  · rw [getRedirectInfo_first_match
        { config with redirects := some (pre ++ rule :: rest) } url pre rest
        rule rfl hpre hrule]
    split <;> rfl
  · intro c u hno
    rw [getRedirectInfo_no_match c u hno]

/-- Witness for C5: the spec's examples — with `redirectStatus = 301` and a
status-less rule `/test → /testing`, resolving `/test` yields 301; with a
rule `/permanent → /moved` carrying `status = 301` and no `redirectStatus`,
resolving `/permanent` yields 301 while the unmatched path `/other` yields
307. -/
theorem status_precedence_witness :
    ((getRedirectInfo (URL.mk "/test" "")
        { destination := "bar.com", redirectStatus := some 301,
          redirects := some ([] ++ RedirectRule.mk "/test" "/testing" none :: []) }).status
      = (RedirectRule.mk "/test" "/testing" none).status.getD
          ((Config.mk "bar.com" (some 301) none).redirectStatus.getD 307))
    ∧ (getRedirectInfo (URL.mk "/permanent" "")
        { destination := "bar.com", redirectStatus := none,
          redirects := some ([] ++ RedirectRule.mk "/permanent" "/moved" (some 301) :: []) }).status
      = 301
    ∧ (getRedirectInfo (URL.mk "/other" "")
        { destination := "bar.com", redirectStatus := none,
          redirects := some [RedirectRule.mk "/permanent" "/moved" (some 301)] }).status
      = 307 :=
  ⟨(status_precedence (Config.mk "bar.com" (some 301) none)
      (URL.mk "/test" "") [] [] (RedirectRule.mk "/test" "/testing" none)
      (by simp) rfl).1,
    (status_precedence (Config.mk "bar.com" none none)
      (URL.mk "/permanent" "") [] []
      (RedirectRule.mk "/permanent" "/moved" (some 301)) (by simp) rfl).1,
    (status_precedence (Config.mk "bar.com" none none)
      (URL.mk "/permanent" "") [] []
      (RedirectRule.mk "/permanent" "/moved" (some 301)) (by simp) rfl).2
      (Config.mk "bar.com" none
        (some [RedirectRule.mk "/permanent" "/moved" (some 301)]))
      (URL.mk "/other" "") (by simp)⟩

/-- Claim C6: matching is exact string equality with no normalization; when
the request path differs from every rule's `from` in any byte, the rules have
no effect at all — the result is identical to resolving with no rules
configured. -/
theorem exact_match_only (config : Config) (url : URL)
    (h : ∀ rs ∈ config.redirects, ∀ r ∈ rs, r.«from» ≠ url.pathname) :
    getRedirectInfo url config
      = getRedirectInfo url { config with redirects := none } := by
  rw [getRedirectInfo_no_match config url h,
    getRedirectInfo_no_match { config with redirects := none } url (by simp)]

/-- Witness for C6: the spec's example — a request for `/biz/` (trailing
slash) does not match a rule with `from = "/biz"`, so the default
substitution is used even though the rule exists. -/
theorem exact_match_only_witness :
    (∀ rs ∈ (Config.mk "bar.com" none
        (some [RedirectRule.mk "/biz" "/baz" none])).redirects, ∀ r ∈ rs,
        r.«from» ≠ (URL.mk "/biz/" "").pathname)
    ∧ getRedirectInfo (URL.mk "/biz/" "")
        (Config.mk "bar.com" none (some [RedirectRule.mk "/biz" "/baz" none]))
      = getRedirectInfo (URL.mk "/biz/" "")
        { Config.mk "bar.com" none
            (some [RedirectRule.mk "/biz" "/baz" none]) with redirects := none } :=
  ⟨by simp, exact_match_only
    (Config.mk "bar.com" none (some [RedirectRule.mk "/biz" "/baz" none]))
    (URL.mk "/biz/" "") (by simp)⟩

/-! Configuration loading.  `loadConfig` reads a file and parses YAML (both
external collaborators); the part embedded here is its validation and return:
`if (!config.destination) throw ...; return config`.  The parsed
`destination` field is an arbitrary JS value before the unchecked `as Config`
cast, so it is embedded as a scalar JS value with its JS truthiness. -/

/-- A scalar JS value, as YAML parsing can produce for the `destination`
field: `undefined` stands for an absent key. -/
inductive RawValue where
  | undefined
  | null
  | str (s : String)
  | num (n : Int)
  | bool (b : Bool)
deriving DecidableEq, Repr

/-- JS truthiness of a scalar value, as tested by `!config.destination`:
`undefined`, `null`, the empty string, `0` and `false` are falsy. -/
def RawValue.truthy : RawValue → Bool
  | .undefined => false
  | .null => false
  | .str s => s ≠ ""
  | .num n => n ≠ 0
  | .bool b => b

/-- A parsed configuration document before validation: the `destination`
field is an arbitrary scalar, the other two fields as in `Config`. -/
structure RawConfig where
  destination : RawValue
  redirectStatus : Option Nat
  redirects : Option (List RedirectRule)
deriving DecidableEq, Repr

/-- The single error the core can signal, thrown by `loadConfig` as
`Error("Config must include a 'destination' field")`. -/
inductive ConfigError where
  | MissingDestination
deriving DecidableEq, Repr

/-- Embeds the validation half of `loadConfig` (file reading and YAML parsing
are external collaborators that supply the `RawConfig`): throw when
`!config.destination` — JS falsiness — and otherwise return the parsed value
unchanged. -/
def loadConfig (config : RawConfig) : Except ConfigError RawConfig :=
  if !config.destination.truthy then
    Except.error ConfigError.MissingDestination
  else
    Except.ok config

/-- The condition under which claim C7 (after the spec's words) requires
validation to fail: the destination is absent, an empty string, or not a
string. -/
def specMissingDest : RawValue → Bool
  | .str s => s = ""
  | _ => true

/-- Counterexample to C7 as stated: a `destination` that is the number 123 is
not a string, so the claim requires a `MissingDestination` error, but 123 is
truthy in JS and `loadConfig` accepts the document unchanged. -/
theorem validation_nonstring_counterexample :
    specMissingDest (RawValue.num 123) = true
    ∧ loadConfig (RawConfig.mk (RawValue.num 123) none none)
        = Except.ok (RawConfig.mk (RawValue.num 123) none none) :=
  ⟨rfl, rfl⟩

/-- Claim C7 (amended): `loadConfig` signals `MissingDestination` exactly when
the `destination` field is JS-falsy — absent, null, an empty string, the
number 0 or `false`; a truthy non-string value (such as a nonzero number)
passes validation.  In particular, validation succeeds for every non-empty
string destination, and on failure no configuration value is produced. -/
theorem validation_truthiness (raw : RawConfig) :
    (loadConfig raw = Except.error ConfigError.MissingDestination
      ↔ raw.destination.truthy = false)
    ∧ (∀ s : String, s ≠ "" → raw.destination = RawValue.str s →
        loadConfig raw = Except.ok raw) := by
  constructor
  · unfold loadConfig
    cases h : raw.destination.truthy <;> simp [h]
  · intro s hs hdest
    have ht : raw.destination.truthy = true := by
      rw [hdest]; simpa [RawValue.truthy] using hs
    simp [loadConfig, ht]

/-- Witness for C7 (amended): a document with `destination = "bar.com"` and
nothing else passes validation unchanged, and does not signal the error. -/
theorem validation_truthiness_witness :
    (("bar.com" : String) ≠ ""
      ∧ (RawConfig.mk (RawValue.str "bar.com") none none).destination
          = RawValue.str "bar.com")
    ∧ loadConfig (RawConfig.mk (RawValue.str "bar.com") none none)
        = Except.ok (RawConfig.mk (RawValue.str "bar.com") none none) :=
  ⟨⟨by decide, rfl⟩,
    (validation_truthiness (RawConfig.mk (RawValue.str "bar.com") none none)).2
      "bar.com" (by decide) rfl⟩

/-- Counterexample to C8 as stated: a valid document with `redirectStatus`
and `redirects` both absent is returned by `loadConfig` with both fields
still absent — `redirectStatus` is not 307 and `redirects` is not the empty
sequence in the constructed value. -/
theorem construction_defaults_counterexample :
    loadConfig (RawConfig.mk (RawValue.str "bar.com") none none)
      = Except.ok (RawConfig.mk (RawValue.str "bar.com") none none)
    ∧ (RawConfig.mk (RawValue.str "bar.com") none none).redirectStatus
        ≠ some 307
    ∧ (RawConfig.mk (RawValue.str "bar.com") none none).redirects ≠ some [] :=
  ⟨rfl, by decide, by decide⟩

/-- Claim C8 (amended): `loadConfig` performs no defaulting at construction
time — every document that passes validation is returned unchanged, with
absent fields still absent.  The defaults are applied at read time inside
`getRedirectInfo`: a configuration with absent `redirectStatus` and absent
`redirects` behaves exactly as one with status 307 and no rules. -/
theorem construction_passthrough (raw : RawConfig)
    (h : raw.destination.truthy = true) :
    loadConfig raw = Except.ok raw
    ∧ ∀ d : String, ∀ u : URL,
        getRedirectInfo u (Config.mk d none none)
          = { url := "https://" ++ d ++ u.pathname ++ u.search,
              status := 307 } := by
  refine ⟨by simp [loadConfig, h], fun d u => ?_⟩
  exact getRedirectInfo_no_match (Config.mk d none none) u (by simp)

/-- Witness for C8 (amended): the `bar.com` document is passed through
unchanged, and the read-time defaults give `/example` the substitution
`https://bar.com/example` with status 307. -/
theorem construction_passthrough_witness :
    (RawConfig.mk (RawValue.str "bar.com") none none).destination.truthy = true
    ∧ (loadConfig (RawConfig.mk (RawValue.str "bar.com") none none)
        = Except.ok (RawConfig.mk (RawValue.str "bar.com") none none)
      ∧ ∀ d : String, ∀ u : URL,
          getRedirectInfo u (Config.mk d none none)
            = { url := "https://" ++ d ++ u.pathname ++ u.search,
                status := 307 }) :=
  ⟨by decide,
    construction_passthrough (RawConfig.mk (RawValue.str "bar.com") none none)
      (by decide)⟩

/-! Result guarantees of the resolver. -/

/-- A validated configuration in the sense of the spec's data-model
invariants: non-empty destination and every present status (rule-level or
default) in the set 301 or 307 — the values the TS type `301 | 307`
admits. -/
def Config.Valid (c : Config) : Prop :=
  c.destination ≠ ""
  ∧ (∀ s ∈ c.redirectStatus, s = 301 ∨ s = 307)
  ∧ (∀ rs ∈ c.redirects, ∀ r ∈ rs, ∀ s ∈ r.status, s = 301 ∨ s = 307)

/-- When the loop matches, the produced status is some rule's `status`
defaulted with the ambient default. -/
theorem redirectLoop_status_mem (pathname search : String)
    (defaultStatus : Nat) (destination : String)
    (rules : List RedirectRule) (info : RedirectInfo)
    (h : redirectLoop pathname search defaultStatus destination rules
      = some info) :
    ∃ r ∈ rules, info.status = r.status.getD defaultStatus := by
  induction rules with
  | nil => simp [redirectLoop] at h
  | cons rule rest ih =>
      by_cases hm : pathname = rule.«from»
      · refine ⟨rule, List.mem_cons_self _ _, ?_⟩
        simp only [redirectLoop, if_pos hm] at h
        split at h <;> (cases h; rfl)
      · simp only [redirectLoop, if_neg hm] at h
        obtain ⟨r, hr, hs⟩ := ih h
        exact ⟨r, List.mem_cons_of_mem _ hr, hs⟩

/-- Claim C9: for every validated configuration and every request URL, the
resolver's status is exactly 301 or 307.  Totality holds by construction:
`getRedirectInfo` is a total Lean function, defined for every configuration
and URL-shaped input. -/
theorem status_in_valid_set (config : Config) (url : URL)
    (hv : config.Valid) :
    (getRedirectInfo url config).status = 301
    ∨ (getRedirectInfo url config).status = 307 := by
  obtain ⟨-, hrs, hrules⟩ := hv
  have hd : config.redirectStatus.getD 307 = 301
      ∨ config.redirectStatus.getD 307 = 307 := by
    cases h : config.redirectStatus with
    | none => exact Or.inr rfl
    | some s => simpa using hrs s (by simp [h])
  cases hl : redirectLoop url.pathname url.search
      (config.redirectStatus.getD 307) config.destination
      (config.redirects.getD []) with
  | none =>
      have : getRedirectInfo url config
          = { url := "https://" ++ config.destination ++ url.pathname
                ++ url.search,
              status := config.redirectStatus.getD 307 } := by
        simp only [getRedirectInfo, hl]
      rw [this]
      exact hd
  | some info =>
      have heq : getRedirectInfo url config = info := by
        simp only [getRedirectInfo, hl]
      rw [heq]
      obtain ⟨r, hrmem, hs⟩ := redirectLoop_status_mem _ _ _ _ _ _ hl
      rw [hs]
      cases hst : r.status with
      | none => simpa using hd
      | some s =>
          have hrin : ∀ rs ∈ config.redirects, r ∈ rs → s = 301 ∨ s = 307 :=
            fun rs hrs2 hmem => hrules rs hrs2 r hmem s (by simp [hst])
          cases hcr : config.redirects with
          | none => rw [hcr] at hl; simp [redirectLoop] at hl
          | some rs =>
              have : r ∈ rs := by
                rw [hcr] at hrmem; simpa using hrmem
              simpa using hrin rs (by simp [hcr]) this

/-- Witness for C9: a validated configuration with a 301 rule and a default
of 307 yields a status in the permitted set for the path `/x`. -/
theorem status_in_valid_set_witness :
    (Config.mk "bar.com" (some 301)
        (some [RedirectRule.mk "/a" "/b" (some 307)])).Valid
    ∧ ((getRedirectInfo (URL.mk "/x" "?q=1")
          (Config.mk "bar.com" (some 301)
            (some [RedirectRule.mk "/a" "/b" (some 307)]))).status = 301
      ∨ (getRedirectInfo (URL.mk "/x" "?q=1")
          (Config.mk "bar.com" (some 301)
            (some [RedirectRule.mk "/a" "/b" (some 307)]))).status = 307) :=
  ⟨⟨by decide, by simp, by simp⟩,
    status_in_valid_set
      (Config.mk "bar.com" (some 301)
        (some [RedirectRule.mk "/a" "/b" (some 307)]))
      (URL.mk "/x" "?q=1") ⟨by decide, by simp, by simp⟩⟩

/-! The HTTP layer: `createHandler`. -/

/-- The incoming request as far as the handler reads it.  In the source the
handler calls `new URL(req.url)`; the platform's URL parsing is an external
collaborator, so the request is embedded as carrying its already-decomposed
URL. -/
structure Request where
  url : URL
deriving DecidableEq, Repr

/-- The parts of the JS `Response` the handler constructs:
`new Response(null, { status, headers: { "Location": ... } })` — a null body
(`none`), a numeric status, and a header list. -/
structure Response where
  body : Option String
  status : Nat
  headers : List (String × String)
deriving DecidableEq, Repr

/-- Embeds `createHandler(config)`: returns the request handler that parses
the request URL, resolves it and answers with a bodyless response carrying
the resolved status and a `Location` header set to the resolved url. -/
def createHandler (config : Config) : Request → Response :=
  fun req =>
    let url := req.url
    let redirect := getRedirectInfo url config
    { body := none,
      status := redirect.status,
      headers := [("Location", redirect.url)] }

/-- Claim C10: for every configuration and request, the handler built by
`createHandler` answers with a null body, the status returned by
`getRedirectInfo` for the request's URL, and a `Location` header holding
exactly the url returned by `getRedirectInfo` — the HTTP layer forwards the
resolver's result verbatim. -/
theorem handler_forwards_resolver (config : Config) (req : Request) :
    (createHandler config req).body = none
    ∧ (createHandler config req).status
        = (getRedirectInfo req.url config).status
    ∧ ((createHandler config req).headers).lookup "Location"
        = some (getRedirectInfo req.url config).url := by
  refine ⟨rfl, rfl, ?_⟩
  simp [createHandler, List.lookup]

end Redirector
